import Mathlib

/-!
# Stolen-time accounting of the Xen time driver (`xentime.c`)

A shallow embedding of `src/xentime/xentime.c`.

Modelling conventions.

* `long long unsigned int` / `uint64_t` values are natural numbers; every
  arithmetic result of that type is reduced `% 2^64`.  `uint32_t` results are
  reduced `% 2^32`.  `int` values are integers; the conversion of a `uint32_t`
  to `int` and the `+=` on the `int` counter are modular on 32 bits (`int32_of_uint32`,
  `wrap_int32`).
* The file-scope objects (`last_runstate`, `stolen`, `xentime_stolen_ticks`,
  `xentime_thread_flag`) are the fields of `State`; the arrays indexed by a
  CPU number are total functions on `Nat`.
* Everything that comes from outside the file is an input: the kernel
  variable `hz`, the CPUs enumerated by `CPU_FOREACH`, the answer of the
  hypercall `HYPERVISOR_vcpu_op` (return code and contents of the output
  buffer after the call), the return code of `mtx_sleep`, and the value the
  stop flag has when `msleep` returns.
* The mutex operations have no effect on the modelled data and are left out.
-/

namespace Xentime

/-! ## Data model -/

/-- The Xen public structure `struct vcpu_runstate_info`: `state`,
`state_entry_time` and the four cumulative counters `time[RUNSTATE_running]`,
`time[RUNSTATE_runnable]`, `time[RUNSTATE_blocked]`, `time[RUNSTATE_offline]`. -/
structure vcpu_runstate_info where
  state : Int
  state_entry_time : Nat
  time_running : Nat
  time_runnable : Nat
  time_blocked : Nat
  time_offline : Nat
deriving DecidableEq, Repr

/-- The zero-filled structure, the value of a static object before any store. -/
def zero_runstate : vcpu_runstate_info :=
  ⟨0, 0, 0, 0, 0, 0⟩

/-- What one call of `HYPERVISOR_vcpu_op(VCPUOP_get_runstate_info, cpu, buf)`
gives back: its return code (0 on success) and the contents of `*buf` once the
call is over.  After a failed call the buffer holds whatever was left in it. -/
structure hypercall_reply where
  rc : Int
  runstate : vcpu_runstate_info
deriving DecidableEq, Repr

/-- The file-scope objects of `xentime.c`, with `kprocs` counting the kernel
processes created through `kproc_create`. -/
structure State where
  last_runstate : Nat → vcpu_runstate_info
  stolen : Nat → Nat
  xentime_stolen_ticks : Int
  xentime_thread_flag : Int
  kprocs : Nat

/-- The state given by the static initialisers: zeroed arrays,
`xentime_thread_flag = -1`, `xentime_stolen_ticks = 0`. -/
def init_state : State where
  last_runstate := fun _ => zero_runstate
  stolen := fun _ => 0
  xentime_stolen_ticks := 0
  xentime_thread_flag := -1
  kprocs := 0

/-! ## Machine arithmetic -/

/-- Subtraction of two `uint64_t` values. -/
def u64_sub (a b : Nat) : Nat :=
  (a + 2 ^ 64 - b % 2 ^ 64) % 2 ^ 64

/-- Conversion of a `uint32_t` value to `int`. -/
def int32_of_uint32 (u : Nat) : Int :=
  if u % 2 ^ 32 < 2 ^ 31 then ((u % 2 ^ 32 : Nat) : Int)
  else ((u % 2 ^ 32 : Nat) : Int) - 2 ^ 32

/-- Reduction of an integer to the range of a 32-bit `int`. -/
def wrap_int32 (n : Int) : Int :=
  (n + 2 ^ 31) % 2 ^ 32 - 2 ^ 31

/-- The macro `NS_PER_TICK`, `1000000000ULL/hz`, with the kernel tick frequency
`hz` taken as a non-negative input.  For `hz = 0` the C division traps; here
the value is 0 and the zero divisor makes `__qdivrem` trap, so a sample gives
`none` either way. -/
def NS_PER_TICK (hz : Nat) : Nat :=
  1000000000 / hz

/-- The libkern routine `__qdivrem(uq, vq, &rem)`: quotient and remainder of
an unsigned 64-bit division; a zero divisor traps. -/
def __qdivrem (uq vq : Nat) : Option (Nat × Nat) :=
  if vq = 0 then none else some (uq / vq, uq % vq)

/-! ## The functions of `xentime.c` -/

/-- Function `xentime_get_runstate_info(cpu, runstate)`: the return code of the
hypercall and what it left in `*runstate`. -/
def xentime_get_runstate_info (reply : hypercall_reply) : Int × vcpu_runstate_info :=
  (reply.rc, reply.runstate)

/-- Function `xentime_init_runstate_info(cpu)`: the hypercall writes into
`last_runstate[cpu]`; its return code is handed back. -/
def xentime_init_runstate_info (st : State) (cpu : Nat) (reply : hypercall_reply) :
    State × Int :=
  let r := xentime_get_runstate_info reply
  ({ st with last_runstate := Function.update st.last_runstate cpu r.2 }, r.1)

/-- Function `xentime_increase_counter(ticks)`: `xentime_stolen_ticks += ticks`. -/
def xentime_increase_counter (st : State) (ticks : Int) : State :=
  { st with xentime_stolen_ticks := wrap_int32 (st.xentime_stolen_ticks + ticks) }

/-- Lines 94-112 of `xentime_do_stolen_accounting(cpu)`: everything before the
call of `xentime_increase_counter`.  Gives the state reached and the value of
the local `uint32_t ticks`; `none` when the division traps. -/
def stolen_accounting_body (hz : Nat) (st : State) (cpu : Nat) (reply : hypercall_reply) :
    Option (State × Nat) :=
  -- the return code of xentime_get_runstate_info is not looked at
  let cur_runstate := (xentime_get_runstate_info reply).2
  let runnable := u64_sub cur_runstate.time_runnable (st.last_runstate cpu).time_runnable
  let offline := u64_sub cur_runstate.time_offline (st.last_runstate cpu).time_offline
  let last := Function.update st.last_runstate cpu cur_runstate
  let s := (runnable + offline + st.stolen cpu) % 2 ^ 64
  -- `if (stolen[cpu] < 0) stolen[cpu] = 0;` on an unsigned value
  let s := if s < 0 then 0 else s
  match __qdivrem s (NS_PER_TICK hz) with
  | none => none
  | some (q, r) =>
    some ({ st with last_runstate := last, stolen := Function.update st.stolen cpu r },
          q % 2 ^ 32)

/-- The `int` argument that `xentime_do_stolen_accounting(cpu)` passes to
`xentime_increase_counter`. -/
def ticks_added (hz : Nat) (st : State) (cpu : Nat) (reply : hypercall_reply) : Option Int :=
  (stolen_accounting_body hz st cpu reply).map fun p => int32_of_uint32 p.2

/-- Function `xentime_do_stolen_accounting(cpu)`: the body followed by the call
`xentime_increase_counter(ticks)`, where `ticks` is converted to `int`. -/
def xentime_do_stolen_accounting (hz : Nat) (st : State) (cpu : Nat)
    (reply : hypercall_reply) : Option State :=
  match stolen_accounting_body hz st cpu reply with
  | none => none
  | some (st1, ticks) => some (xentime_increase_counter st1 (int32_of_uint32 ticks))

/-- Function `xentime_do_init()`: the CPUs are visited in order; the first non-zero
return code ends the loop and is returned. -/
def xentime_do_init (fetch : Nat → hypercall_reply) : List Nat → State → State × Int
  | [], st => (st, 0)
  | i :: rest, st =>
    let p := xentime_init_runstate_info st i (fetch i)
    if p.2 ≠ 0 then p else xentime_do_init fetch rest p.1

/-- One pass of `CPU_FOREACH(i) xentime_do_stolen_accounting(i);`. -/
def sample_cycle (hz : Nat) (fetch : Nat → hypercall_reply) : List Nat → State → Option State
  | [], st => some st
  | i :: rest, st =>
    match xentime_do_stolen_accounting hz st i (fetch i) with
    | none => none
    | some st1 => sample_cycle hz fetch rest st1

/-- What the environment does while the thread is inside one `msleep`: the
value `xentime_thread_flag` has when `msleep` returns, and the hypercall
answers of the cycle that follows. -/
structure wake where
  flag : Int
  fetch : Nat → hypercall_reply

/-- Outcome of running the thread body against a finite list of wake-ups. -/
structure thread_result where
  st : State
  exited : Bool
  cycles : Nat

/-- Function `xentime_do_thread`: `while(!xentime_thread_flag) { msleep(...);
CPU_FOREACH(i) xentime_do_stolen_accounting(i); }` followed by `kproc_exit`.
`exited` tells whether the loop was left (`false`: still inside `msleep` when
the wake-ups ran out); `cycles` counts the passes over the CPUs; `none` when
a division trapped. -/
def xentime_do_thread (hz : Nat) (cpus : List Nat) :
    List wake → State → Nat → Option thread_result
  | ws, st, n =>
    if st.xentime_thread_flag ≠ 0 then some ⟨st, true, n⟩
    else
      match ws with
      | [] => some ⟨st, false, n⟩
      | w :: rest =>
        match sample_cycle hz w.fetch cpus { st with xentime_thread_flag := w.flag } with
        | none => none
        | some st1 => xentime_do_thread hz cpus rest st1 (n + 1)

/-- The module event `MOD_LOAD` of `sys/module.h`. -/
def MOD_LOAD : Int := 0

/-- The module event `MOD_UNLOAD` of `sys/module.h`. -/
def MOD_UNLOAD : Int := 1

/-- The error number `EPERM` of `sys/errno.h`. -/
def EPERM : Int := 1

/-- The error number `EOPNOTSUPP` of `sys/errno.h`. -/
def EOPNOTSUPP : Int := 45

/-- The call `kproc_create(xentime_do_thread, ...)`: one more kernel process. -/
def kproc_create (st : State) : State :=
  { st with kprocs := st.kprocs + 1 }

/-- Function `event_handler(module, event, arg)`.  `sleep_rc` is what `mtx_sleep`
returns on the unload path. -/
def event_handler (cpus : List Nat) (fetch : Nat → hypercall_reply) (sleep_rc : Int)
    (st : State) (event : Int) : State × Int :=
  if event = MOD_LOAD then
    let p := xentime_do_init fetch cpus st
    let st1 := if p.2 = 0 then { p.1 with xentime_thread_flag := 0 } else p.1
    -- not governed by the `if`: the statement follows it without braces
    (kproc_create st1, 0)
  else if event = MOD_UNLOAD then
    let st1 := { st with xentime_thread_flag := -1 }
    (st1, if sleep_rc ≠ 0 then EPERM else 0)
  else
    (st, EOPNOTSUPP)

/-- Consecutive calls `xentime_do_stolen_accounting(cpu)` on one CPU, one per
hypercall reply.  Gives the final state and, in order, the `int` amounts passed
to `xentime_increase_counter`. -/
def run_samples (hz : Nat) (cpu : Nat) : List hypercall_reply → State → Option (State × List Int)
  | [], st => some (st, [])
  | r :: rest, st =>
    match xentime_do_stolen_accounting hz st cpu r, ticks_added hz st cpu r with
    | some st1, some t =>
      match run_samples hz cpu rest st1 with
      | none => none
      | some (st2, ts) => some (st2, t :: ts)
    | _, _ => none

/-! ## Quantities the statements speak about -/

/-- The value `stolen[cpu]` holds right before the division: the two
`uint64_t` differences plus the carried remainder, as the code computes it. -/
def sample_total (st : State) (cpu : Nat) (cur : vcpu_runstate_info) : Nat :=
  (u64_sub cur.time_runnable (st.last_runstate cpu).time_runnable
    + u64_sub cur.time_offline (st.last_runstate cpu).time_offline
    + st.stolen cpu) % 2 ^ 64

/-- The runnable+offline delta of one cycle, each difference taken as the code
takes it. -/
def cycle_delta (last cur : vcpu_runstate_info) : Nat :=
  u64_sub cur.time_runnable last.time_runnable + u64_sub cur.time_offline last.time_offline

/-- The deltas `d1, ..., dn` of consecutive cycles: each snapshot is measured
against the one before it, the first against the baseline. -/
def cycle_deltas : vcpu_runstate_info → List vcpu_runstate_info → List Nat
  | _, [] => []
  | last, cur :: rest => cycle_delta last cur :: cycle_deltas cur rest

/-- In every cycle the quotient `(d + carried remainder) / n` is below `2^31`,
the carried remainder starting at `rem`. -/
def quotients_fit (n : Nat) : Nat → List Nat → Prop
  | _, [] => True
  | rem, d :: ds => (d + rem) / n < 2 ^ 31 ∧ quotients_fit n ((d + rem) % n) ds

instance quotients_fit_decidable (n : Nat) :
    (rem : Nat) → (ds : List Nat) → Decidable (quotients_fit n rem ds)
  | _, [] => isTrue trivial
  | rem, d :: ds =>
    have := quotients_fit_decidable n ((d + rem) % n) ds
    inferInstanceAs (Decidable ((d + rem) / n < 2 ^ 31 ∧ quotients_fit n ((d + rem) % n) ds))

/-- Both accounted counters of `a` are at most those of `b`. -/
def snap_le (a b : vcpu_runstate_info) : Prop :=
  a.time_runnable ≤ b.time_runnable ∧ a.time_offline ≤ b.time_offline

instance (a b : vcpu_runstate_info) : Decidable (snap_le a b) := by
  unfold snap_le
  infer_instance

/-- Runnable+offline time accumulated between the snapshots `base` and `cur`. -/
def cumulative_delta (base cur : vcpu_runstate_info) : Nat :=
  (cur.time_runnable - base.time_runnable) + (cur.time_offline - base.time_offline)

/-- The exact total of one cycle, `delta_runnable + delta_offline + remainder`,
in unbounded arithmetic. -/
def total_ns (st : State) (cpu : Nat) (cur : vcpu_runstate_info) : Nat :=
  cumulative_delta (st.last_runstate cpu) cur + st.stolen cpu

/-- States reached from the static initial state by module events and sample
calls. -/
inductive Reachable (hz : Nat) (cpus : List Nat) : State → Prop
  | init : Reachable hz cpus init_state
  | event (st : State) (fetch : Nat → hypercall_reply) (sleep_rc event : Int) :
      Reachable hz cpus st → Reachable hz cpus (event_handler cpus fetch sleep_rc st event).1
  | sample (st st1 : State) (cpu : Nat) (reply : hypercall_reply) :
      Reachable hz cpus st → xentime_do_stolen_accounting hz st cpu reply = some st1 →
      Reachable hz cpus st1

/-- A snapshot with the given runnable and offline counters, all else zero. -/
def snapshot (runnable offline : Nat) : vcpu_runstate_info :=
  ⟨0, 0, 0, runnable, 0, offline⟩

/-- A hypercall environment in which CPU `j` fails with return code `-1`,
its buffer left zero-filled, and every other CPU answers with runnable 7 and
offline 9. -/
def fetch_failing_on (j : Nat) : Nat → hypercall_reply :=
  fun c => if c = j then ⟨-1, zero_runstate⟩ else ⟨0, snapshot 7 9⟩

/-- The state after a successful `MOD_LOAD` on zero baselines: flag cleared,
one kernel process created. -/
def running_state : State :=
  { init_state with xentime_thread_flag := 0, kprocs := 1 }

/-- A state whose stored baseline of every CPU is runnable 100, offline 100. -/
def baseline_100_state : State :=
  { init_state with last_runstate := fun _ => snapshot 100 100 }

/-! ## Auxiliary facts -/

theorem NS_PER_TICK_le (hz : Nat) : NS_PER_TICK hz ≤ 1000000000 := by
  unfold NS_PER_TICK
  exact Nat.div_le_self _ _

theorem NS_PER_TICK_pos (hz : Nat) (h1 : 1 ≤ hz) (h2 : hz ≤ 1000000000) :
    0 < NS_PER_TICK hz := by
  unfold NS_PER_TICK
  exact Nat.div_pos h2 h1

theorem u64_sub_of_le (a b : Nat) (h : b ≤ a) (h2 : a - b < 2 ^ 64) :
    u64_sub a b = a - b := by
  unfold u64_sub
  omega

theorem int32_of_uint32_small (u : Nat) (h : u < 2 ^ 31) : int32_of_uint32 u = (u : Int) := by
  unfold int32_of_uint32
  have h1 : u % 2 ^ 32 = u := Nat.mod_eq_of_lt (by omega)
  rw [h1, if_pos h]

theorem wrap_int32_of_range (n : Int) (h1 : -2 ^ 31 ≤ n) (h2 : n < 2 ^ 31) :
    wrap_int32 n = n := by
  unfold wrap_int32
  omega

theorem body_of_pos (hz : Nat) (st : State) (cpu : Nat) (reply : hypercall_reply)
    (hN : 0 < NS_PER_TICK hz) :
    stolen_accounting_body hz st cpu reply =
      some ({ st with
                last_runstate := Function.update st.last_runstate cpu reply.runstate,
                stolen := Function.update st.stolen cpu
                  (sample_total st cpu reply.runstate % NS_PER_TICK hz) },
            sample_total st cpu reply.runstate / NS_PER_TICK hz % 2 ^ 32) := by
  have hne : NS_PER_TICK hz ≠ 0 := Nat.pos_iff_ne_zero.mp hN
  simp [stolen_accounting_body, __qdivrem, hne, sample_total, xentime_get_runstate_info]

theorem step_of_pos (hz : Nat) (st : State) (cpu : Nat) (reply : hypercall_reply)
    (hN : 0 < NS_PER_TICK hz) :
    xentime_do_stolen_accounting hz st cpu reply =
      some (xentime_increase_counter
        { st with
            last_runstate := Function.update st.last_runstate cpu reply.runstate,
            stolen := Function.update st.stolen cpu
              (sample_total st cpu reply.runstate % NS_PER_TICK hz) }
        (int32_of_uint32 (sample_total st cpu reply.runstate / NS_PER_TICK hz % 2 ^ 32))) := by
  unfold xentime_do_stolen_accounting
  rw [body_of_pos hz st cpu reply hN]

theorem ticks_added_of_pos (hz : Nat) (st : State) (cpu : Nat) (reply : hypercall_reply)
    (hN : 0 < NS_PER_TICK hz) :
    ticks_added hz st cpu reply =
      some (int32_of_uint32 (sample_total st cpu reply.runstate / NS_PER_TICK hz % 2 ^ 32)) := by
  unfold ticks_added
  rw [body_of_pos hz st cpu reply hN]
  rfl

theorem sample_total_of_delta (st : State) (cpu : Nat) (cur : vcpu_runstate_info)
    (h : cycle_delta (st.last_runstate cpu) cur + st.stolen cpu < 2 ^ 64) :
    sample_total st cpu cur = cycle_delta (st.last_runstate cpu) cur + st.stolen cpu := by
  unfold sample_total
  unfold cycle_delta at h
  exact Nat.mod_eq_of_lt h

theorem cycle_delta_of_le (last cur : vcpu_runstate_info) (hle : snap_le last cur)
    (h : cumulative_delta last cur < 2 ^ 64) :
    cycle_delta last cur = cumulative_delta last cur := by
  unfold cumulative_delta at h
  unfold cycle_delta cumulative_delta
  rw [u64_sub_of_le _ _ hle.1 (by omega), u64_sub_of_le _ _ hle.2 (by omega)]

/-- With a total below `2^31 * NS_PER_TICK` the narrowing to `uint32_t` and the
conversion to `int` keep the quotient as it is. -/
theorem amount_exact (n t : Nat) (h : t < 2 ^ 31 * n) :
    int32_of_uint32 (t / n % 2 ^ 32) = ((t / n : Nat) : Int) := by
  have hq : t / n < 2 ^ 31 := Nat.div_lt_of_lt_mul (by rw [Nat.mul_comm]; exact h)
  have h1 : t / n % 2 ^ 32 = t / n := Nat.mod_eq_of_lt (by omega)
  rw [h1]
  exact int32_of_uint32_small _ hq

theorem do_init_stolen (fetch : Nat → hypercall_reply) (cpus : List Nat) (st : State) :
    (xentime_do_init fetch cpus st).1.stolen = st.stolen := by
  induction cpus generalizing st with
  | nil => rfl
  | cons i rest ih =>
    unfold xentime_do_init
    by_cases h : (xentime_init_runstate_info st i (fetch i)).2 ≠ 0
    · rw [if_pos h]
      rfl
    · rw [if_neg h, ih]
      rfl

theorem event_handler_stolen (cpus : List Nat) (fetch : Nat → hypercall_reply)
    (sleep_rc : Int) (st : State) (event : Int) :
    (event_handler cpus fetch sleep_rc st event).1.stolen = st.stolen := by
  unfold event_handler
  by_cases h1 : event = MOD_LOAD
  · simp only [h1, if_true]
    by_cases h2 : (xentime_do_init fetch cpus st).2 = 0
    · rw [if_pos h2]
      exact do_init_stolen fetch cpus st
    · rw [if_neg h2]
      exact do_init_stolen fetch cpus st
  · rw [if_neg h1]
    by_cases h2 : event = MOD_UNLOAD
    · rw [if_pos h2]
    · rw [if_neg h2]

theorem step_stolen_lt (hz : Nat) (st st1 : State) (cpu : Nat) (reply : hypercall_reply)
    (hN : 0 < NS_PER_TICK hz) (hinv : ∀ c, st.stolen c < NS_PER_TICK hz)
    (h : xentime_do_stolen_accounting hz st cpu reply = some st1) :
    ∀ c, st1.stolen c < NS_PER_TICK hz := by
  rw [step_of_pos hz st cpu reply hN] at h
  cases h
  intro c
  simp only [xentime_increase_counter]
  by_cases hc : c = cpu
  · subst hc
    rw [Function.update_same]
    exact Nat.mod_lt _ hN
  · rw [Function.update_noteq hc]
    exact hinv c

theorem sample_total_exact (hz : Nat) (st : State) (cpu : Nat) (cur : vcpu_runstate_info)
    (hle : snap_le (st.last_runstate cpu) cur)
    (hfit : total_ns st cpu cur < 2 ^ 31 * NS_PER_TICK hz) :
    sample_total st cpu cur = total_ns st cpu cur := by
  have hn := NS_PER_TICK_le hz
  have hb : 2 ^ 31 * NS_PER_TICK hz ≤ 2 ^ 31 * 1000000000 := Nat.mul_le_mul_left _ hn
  unfold total_ns at hfit ⊢
  have hd : cycle_delta (st.last_runstate cpu) cur = cumulative_delta (st.last_runstate cpu) cur :=
    cycle_delta_of_le _ _ hle (by omega)
  rw [sample_total_of_delta st cpu cur (by rw [hd]; omega), hd]

/-- One sample in the range where nothing is narrowed or wrapped. -/
theorem step_exact (hz : Nat) (st : State) (cpu : Nat) (reply : hypercall_reply)
    (hle : snap_le (st.last_runstate cpu) reply.runstate)
    (hfit : total_ns st cpu reply.runstate < 2 ^ 31 * NS_PER_TICK hz)
    (hlo : -2 ^ 31 ≤ st.xentime_stolen_ticks)
    (hhi : st.xentime_stolen_ticks
      + ((total_ns st cpu reply.runstate / NS_PER_TICK hz : Nat) : Int) < 2 ^ 31) :
    ∃ st1, xentime_do_stolen_accounting hz st cpu reply = some st1 ∧
      ticks_added hz st cpu reply
        = some ((total_ns st cpu reply.runstate / NS_PER_TICK hz : Nat) : Int) ∧
      st1.xentime_stolen_ticks = st.xentime_stolen_ticks
        + ((total_ns st cpu reply.runstate / NS_PER_TICK hz : Nat) : Int) ∧
      st1.stolen cpu = total_ns st cpu reply.runstate % NS_PER_TICK hz ∧
      st1.last_runstate cpu = reply.runstate := by
  have hN : 0 < NS_PER_TICK hz := by
    rcases Nat.eq_zero_or_pos (NS_PER_TICK hz) with h0 | h0
    · rw [h0] at hfit; omega
    · exact h0
  have ht := sample_total_exact hz st cpu reply.runstate hle hfit
  have ha := amount_exact (NS_PER_TICK hz) (total_ns st cpu reply.runstate) hfit
  refine ⟨_, step_of_pos hz st cpu reply hN, ?_, ?_, ?_, ?_⟩
  · rw [ticks_added_of_pos hz st cpu reply hN, ht, ha]
  · simp only [xentime_increase_counter]
    rw [ht, ha]
    have hq0 : (0 : Int) ≤ ((total_ns st cpu reply.runstate / NS_PER_TICK hz : Nat) : Int) :=
      Int.ofNat_nonneg _
    exact wrap_int32_of_range _ (by linarith) hhi
  · simp only [xentime_increase_counter, Function.update_same]
    rw [ht]
  · simp only [xentime_increase_counter, Function.update_same]

/-- Carry over a run of samples: with the quotient of every cycle below `2^31`, the
amounts passed to `xentime_increase_counter` are the exact quotients, so the
amounts times the tick length plus the final remainder give back the initial
remainder plus all deltas. -/
theorem run_samples_carry (hz : Nat) (cpu : Nat) (hN : 0 < NS_PER_TICK hz) :
    ∀ (replies : List hypercall_reply) (st : State),
      quotients_fit (NS_PER_TICK hz) (st.stolen cpu)
        (cycle_deltas (st.last_runstate cpu) (replies.map hypercall_reply.runstate)) →
      ∃ st1 amounts, run_samples hz cpu replies st = some (st1, amounts) ∧
        amounts.length = replies.length ∧
        ∃ q : Nat, amounts.sum = (q : Int) ∧
          q * NS_PER_TICK hz + st1.stolen cpu
            = st.stolen cpu
              + (cycle_deltas (st.last_runstate cpu) (replies.map hypercall_reply.runstate)).sum ∧
          (replies ≠ [] → st1.stolen cpu < NS_PER_TICK hz) := by
  intro replies
  induction replies with
  | nil =>
    intro st _
    exact ⟨st, [], rfl, rfl, 0, rfl, by simp [cycle_deltas], fun h => absurd rfl h⟩
  | cons r rest ih =>
    intro st hfit
    simp only [List.map_cons, cycle_deltas, quotients_fit] at hfit
    obtain ⟨hq, hrest⟩ := hfit
    have hn := NS_PER_TICK_le hz
    have hlt : cycle_delta (st.last_runstate cpu) r.runstate + st.stolen cpu
        < 2 ^ 31 * NS_PER_TICK hz :=
      (Nat.div_lt_iff_lt_mul hN).mp hq
    have hb : 2 ^ 31 * NS_PER_TICK hz ≤ 2 ^ 31 * 1000000000 := Nat.mul_le_mul_left _ hn
    have ht : sample_total st cpu r.runstate
        = cycle_delta (st.last_runstate cpu) r.runstate + st.stolen cpu :=
      sample_total_of_delta st cpu r.runstate (by omega)
    have ha := amount_exact (NS_PER_TICK hz) _ hlt
    have hstep := step_of_pos hz st cpu r hN
    have hticks := ticks_added_of_pos hz st cpu r hN
    rw [ht] at hstep hticks
    rw [ha] at hstep hticks
    generalize hst1 : xentime_increase_counter
        { st with
            last_runstate := Function.update st.last_runstate cpu r.runstate,
            stolen := Function.update st.stolen cpu
              ((cycle_delta (st.last_runstate cpu) r.runstate + st.stolen cpu)
                % NS_PER_TICK hz) }
        ((((cycle_delta (st.last_runstate cpu) r.runstate + st.stolen cpu)
            / NS_PER_TICK hz : Nat)) : Int) = st1 at hstep
    have hs1 : st1.stolen cpu
        = (cycle_delta (st.last_runstate cpu) r.runstate + st.stolen cpu) % NS_PER_TICK hz := by
      rw [← hst1]
      simp only [xentime_increase_counter, Function.update_same]
    have hl1 : st1.last_runstate cpu = r.runstate := by
      rw [← hst1]
      simp only [xentime_increase_counter, Function.update_same]
    have hfit1 : quotients_fit (NS_PER_TICK hz) (st1.stolen cpu)
        (cycle_deltas (st1.last_runstate cpu) (rest.map hypercall_reply.runstate)) := by
      rw [hs1, hl1]
      exact hrest
    obtain ⟨st2, ts, hrun, hlen, q, hsum, hq2, hlt2⟩ := ih st1 hfit1
    refine ⟨st2,
      (((cycle_delta (st.last_runstate cpu) r.runstate + st.stolen cpu)
          / NS_PER_TICK hz : Nat) : Int) :: ts, ?_, ?_,
      (cycle_delta (st.last_runstate cpu) r.runstate + st.stolen cpu)
        / NS_PER_TICK hz + q, ?_, ?_, ?_⟩
    · simp only [run_samples, hstep, hticks, hrun]
    · simp only [List.length_cons, hlen]
    · simp only [List.sum_cons, hsum]
      push_cast
      rfl
    · simp only [List.map_cons, cycle_deltas, List.sum_cons]
      rw [hs1, hl1] at hq2
      have hdm := Nat.div_add_mod
        (cycle_delta (st.last_runstate cpu) r.runstate + st.stolen cpu) (NS_PER_TICK hz)
      rw [Nat.add_mul]
      rw [Nat.mul_comm] at hdm
      omega
    · intro _
      rcases rest with _ | ⟨r2, rest2⟩
      · simp only [run_samples, Option.some.injEq, Prod.mk.injEq] at hrun
        rw [← hrun.1, hs1]
        exact Nat.mod_lt _ hN
      · exact hlt2 (List.cons_ne_nil _ _)

/-! ## Lossless carry -/

/-- C1 as stated fails: at `hz = 100`, from the initial state, one successful
cycle with delta `42,949,672,960,000,000 = 2^32 * NS_PER_TICK` adds the amount 0,
while `floor(d1 / NS_PER_TICK) = 4,294,967,296`. -/
theorem lossless_carry_counterexample :
    init_state.stolen 0 = 0 ∧
    (∀ r ∈ [(⟨0, snapshot 42949672960000000 0⟩ : hypercall_reply)], r.rc = 0) ∧
    cycle_deltas (init_state.last_runstate 0)
      ([(⟨0, snapshot 42949672960000000 0⟩ : hypercall_reply)].map hypercall_reply.runstate)
      = [42949672960000000] ∧
    (run_samples 100 0 [⟨0, snapshot 42949672960000000 0⟩] init_state).map Prod.snd
      = some [0] ∧
    ([0] : List Int).sum ≠ (((([42949672960000000] : List Nat).sum / NS_PER_TICK 100 : Nat)) : Int) := by
  refine ⟨rfl, by decide, by decide, by decide, by decide⟩

/-- C1, amended: with `1 <= hz <= 1,000,000,000`, starting from remainder 0 and
any baseline, for n consecutive successful sample cycles on one CPU with deltas
`d1, ..., dn` such that in every cycle the quotient `(d_i + carried remainder) /
NS_PER_TICK` is below `2^31`, the calls return and the sum of the n amounts
passed to `xentime_increase_counter` is `floor((d1 + ... + dn) / NS_PER_TICK)`. -/
theorem lossless_carry (hz : Nat) (cpu : Nat) (st : State) (replies : List hypercall_reply)
    (h1 : 1 ≤ hz) (h2 : hz ≤ 1000000000)
    (hrem : st.stolen cpu = 0)
    (_hok : ∀ r ∈ replies, r.rc = 0)
    (hfit : quotients_fit (NS_PER_TICK hz) 0
      (cycle_deltas (st.last_runstate cpu) (replies.map hypercall_reply.runstate))) :
    ∃ st1 amounts, run_samples hz cpu replies st = some (st1, amounts) ∧
      amounts.length = replies.length ∧
      amounts.sum =
        (((cycle_deltas (st.last_runstate cpu) (replies.map hypercall_reply.runstate)).sum
          / NS_PER_TICK hz : Nat) : Int) := by
  have hN : 0 < NS_PER_TICK hz := NS_PER_TICK_pos hz h1 h2
  rw [← hrem] at hfit
  obtain ⟨st1, amounts, hrun, hlen, q, hsum, hq, hlt⟩ := run_samples_carry hz cpu hN replies st hfit
  refine ⟨st1, amounts, hrun, hlen, ?_⟩
  rw [hsum]
  congr 1
  rw [hrem, Nat.zero_add] at hq
  rcases replies with _ | ⟨r, rest⟩
  · simp only [run_samples, Option.some.injEq, Prod.mk.injEq] at hrun
    simp only [List.map_nil, cycle_deltas, List.sum_nil] at hq ⊢
    rw [← hrun.1, hrem] at hq
    rw [Nat.zero_div]
    rcases Nat.eq_zero_or_pos q with h0 | h0
    · exact h0
    · have := Nat.mul_pos h0 hN
      omega
  · have hr := hlt (List.cons_ne_nil _ _)
    rw [← hq, Nat.add_comm, Nat.add_mul_div_right _ _ hN, Nat.div_eq_of_lt hr, Nat.zero_add]

/-- Lossless carry at `hz = 100`: cumulative fetches 25,000,000 and 40,000,000
(deltas 25,000,000 and 15,000,000) add `floor(40,000,000 / 10,000,000) = 4`. -/
theorem lossless_carry_witness :
    (cycle_deltas (init_state.last_runstate 0)
      ([(⟨0, snapshot 25000000 0⟩ : hypercall_reply), ⟨0, snapshot 40000000 0⟩].map
        hypercall_reply.runstate)).sum / NS_PER_TICK 100 = 4 ∧
    ∃ st1 amounts,
      run_samples 100 0 [⟨0, snapshot 25000000 0⟩, ⟨0, snapshot 40000000 0⟩] init_state
        = some (st1, amounts) ∧
      amounts.length = 2 ∧
      amounts.sum =
        (((cycle_deltas (init_state.last_runstate 0)
          ([(⟨0, snapshot 25000000 0⟩ : hypercall_reply), ⟨0, snapshot 40000000 0⟩].map
            hypercall_reply.runstate)).sum / NS_PER_TICK 100 : Nat) : Int) :=
  ⟨by decide,
   lossless_carry 100 0 init_state [⟨0, snapshot 25000000 0⟩, ⟨0, snapshot 40000000 0⟩]
    (by decide) (by decide) rfl (by decide) (by decide)⟩

/-! ## The single sample step -/

/-- C2 as stated fails: at `hz = 100`, from the initial state, a successful
fetch of runnable `42,949,672,985,000,000` (not below the baseline 0) has total
`/ NS_PER_TICK = 4,294,967,298`, yet the counter goes from 0 to 2. -/
theorem single_step_counterexample :
    (⟨0, snapshot 42949672985000000 0⟩ : hypercall_reply).rc = 0 ∧
    snap_le (init_state.last_runstate 0) (snapshot 42949672985000000 0) ∧
    total_ns init_state 0 (snapshot 42949672985000000 0) / NS_PER_TICK 100 = 4294967298 ∧
    ∃ st1, xentime_do_stolen_accounting 100 init_state 0 ⟨0, snapshot 42949672985000000 0⟩
        = some st1 ∧
      st1.xentime_stolen_ticks = 2 ∧
      st1.xentime_stolen_ticks ≠ init_state.xentime_stolen_ticks
        + ((total_ns init_state 0 (snapshot 42949672985000000 0) / NS_PER_TICK 100 : Nat) : Int) := by
  refine ⟨rfl, by decide, by decide, _, step_of_pos 100 init_state 0 _ (by decide), ?_, ?_⟩
  · decide
  · decide

/-- C2, amended: for a successful fetch whose runnable and offline counters
are not below the stored baseline, with
`total = (cur.runnable - last.runnable) + (cur.offline - last.offline) + remainder`
below `2^31 * NS_PER_TICK` and the `int` counter not overflowing,
`xentime_do_stolen_accounting` passes `total / NS_PER_TICK` to
`xentime_increase_counter`, the counter grows by that amount, the new
remainder is `total % NS_PER_TICK` and `cur` is the new baseline. -/
theorem single_sample_step (hz : Nat) (st : State) (cpu : Nat) (reply : hypercall_reply)
    (_hok : reply.rc = 0)
    (hle : snap_le (st.last_runstate cpu) reply.runstate)
    (hfit : total_ns st cpu reply.runstate < 2 ^ 31 * NS_PER_TICK hz)
    (hlo : -2 ^ 31 ≤ st.xentime_stolen_ticks)
    (hhi : st.xentime_stolen_ticks
      + ((total_ns st cpu reply.runstate / NS_PER_TICK hz : Nat) : Int) < 2 ^ 31) :
    ∃ st1, xentime_do_stolen_accounting hz st cpu reply = some st1 ∧
      ticks_added hz st cpu reply
        = some ((total_ns st cpu reply.runstate / NS_PER_TICK hz : Nat) : Int) ∧
      st1.xentime_stolen_ticks = st.xentime_stolen_ticks
        + ((total_ns st cpu reply.runstate / NS_PER_TICK hz : Nat) : Int) ∧
      st1.stolen cpu = total_ns st cpu reply.runstate % NS_PER_TICK hz ∧
      st1.last_runstate cpu = reply.runstate :=
  step_exact hz st cpu reply hle hfit hlo hhi

/-- The worked example of C2 at `hz = 100` (`NS_PER_TICK = 10,000,000`): from
baseline `{0,0}` and remainder 0 a fetch of runnable 25,000,000 gives 2 ticks
and remainder 5,000,000; a following fetch of runnable 40,000,000 gives 2
ticks and remainder 0, and the counter is then 4. -/
theorem single_sample_step_witness :
    NS_PER_TICK 100 = 10000000 ∧
    ∃ st1 st2,
      xentime_do_stolen_accounting 100 init_state 0 ⟨0, snapshot 25000000 0⟩ = some st1 ∧
      ticks_added 100 init_state 0 ⟨0, snapshot 25000000 0⟩ = some 2 ∧
      st1.stolen 0 = 5000000 ∧
      xentime_do_stolen_accounting 100 st1 0 ⟨0, snapshot 40000000 0⟩ = some st2 ∧
      ticks_added 100 st1 0 ⟨0, snapshot 40000000 0⟩ = some 2 ∧
      st2.stolen 0 = 0 ∧
      st2.xentime_stolen_ticks = 4 := by
  refine ⟨by decide, ?_⟩
  obtain ⟨st1, hs1, ht1, hc1, hr1, hl1⟩ :=
    single_sample_step 100 init_state 0 ⟨0, snapshot 25000000 0⟩ rfl (by decide) (by decide)
      (by decide) (by decide)
  have e1 : total_ns init_state 0 (snapshot 25000000 0) = 25000000 := by decide
  have hn : NS_PER_TICK 100 = 10000000 := by decide
  simp only [e1, hn] at ht1 hc1 hr1 hl1
  have hc1v : st1.xentime_stolen_ticks = 2 := by rw [hc1]; decide
  have hr1v : st1.stolen 0 = 5000000 := by rw [hr1]
  have e2 : total_ns st1 0 (snapshot 40000000 0) = 20000000 := by
    unfold total_ns cumulative_delta
    rw [hl1, hr1v]
    decide
  obtain ⟨st2, hs2, ht2, hc2, hr2, _⟩ :=
    single_sample_step 100 st1 0 ⟨0, snapshot 40000000 0⟩ rfl
      (by rw [hl1]; decide) (by rw [e2]; decide) (by rw [hc1v]; decide)
      (by rw [e2, hc1v]; decide)
  simp only [e2, hn, hc1v] at ht2 hc2 hr2
  refine ⟨st1, st2, hs1, ?_, hr1v, hs2, ?_, ?_, ?_⟩
  · rw [ht1]; decide
  · rw [ht2]; decide
  · rw [hr2]
  · rw [hc2]; decide

/-! ## The remainder bound -/

/-- C3: with `1 <= hz <= 1,000,000,000`, a call `xentime_do_stolen_accounting(cpu)`
returns from any state and for any hypercall reply, and afterwards
`stolen[cpu] < NS_PER_TICK`; and in every state reachable from the static
initial state every `stolen[c]` is below `NS_PER_TICK`. -/
theorem remainder_bound (hz : Nat) (h1 : 1 ≤ hz) (h2 : hz ≤ 1000000000) (cpus : List Nat) :
    (∀ (st : State) (cpu : Nat) (reply : hypercall_reply),
      ∃ st1, xentime_do_stolen_accounting hz st cpu reply = some st1 ∧
        0 ≤ st1.stolen cpu ∧ st1.stolen cpu < NS_PER_TICK hz) ∧
    (∀ st : State, Reachable hz cpus st → ∀ c, 0 ≤ st.stolen c ∧ st.stolen c < NS_PER_TICK hz) := by
  have hN : 0 < NS_PER_TICK hz := NS_PER_TICK_pos hz h1 h2
  refine ⟨?_, ?_⟩
  · intro st cpu reply
    refine ⟨_, step_of_pos hz st cpu reply hN, Nat.zero_le _, ?_⟩
    simp only [xentime_increase_counter, Function.update_same]
    exact Nat.mod_lt _ hN
  · intro st hr
    have key : ∀ c, st.stolen c < NS_PER_TICK hz := by
      induction hr with
      | init => intro c; exact hN
      | event st fetch sleep_rc event _ ih =>
        intro c
        rw [event_handler_stolen]
        exact ih c
      | sample st st1 cpu reply _ hstep ih =>
        exact step_stolen_lt hz st st1 cpu reply hN ih hstep
    intro c
    exact ⟨Nat.zero_le _, key c⟩

/-- The remainder bound at `hz = 100`: a sample of CPU 0 from the initial state. -/
theorem remainder_bound_witness :
    (1 ≤ 100 ∧ 100 ≤ 1000000000) ∧
    (∃ st1, xentime_do_stolen_accounting 100 init_state 0 ⟨0, snapshot 25000000 0⟩ = some st1 ∧
        0 ≤ st1.stolen 0 ∧ st1.stolen 0 < NS_PER_TICK 100) :=
  ⟨by decide,
   (remainder_bound 100 (by decide) (by decide) [0]).1 init_state 0 ⟨0, snapshot 25000000 0⟩⟩

/-! ## Monotonicity of the counter -/

/-- C4 as stated fails: at `hz = 100`, from the initial state (counter 0), one
successful sample with runnable `21,474,836,480,000,000 = 2^31 * NS_PER_TICK`
passes the amount `-2^31` and leaves the counter at `-2,147,483,648`, below
its value before the call. -/
theorem counter_monotone_counterexample :
    (⟨0, snapshot 21474836480000000 0⟩ : hypercall_reply).rc = 0 ∧
    ticks_added 100 init_state 0 ⟨0, snapshot 21474836480000000 0⟩ = some (-2147483648) ∧
    ∃ st1, xentime_do_stolen_accounting 100 init_state 0 ⟨0, snapshot 21474836480000000 0⟩
        = some st1 ∧
      st1.xentime_stolen_ticks = -2147483648 ∧
      ¬ (init_state.xentime_stolen_ticks ≤ st1.xentime_stolen_ticks) := by
  refine ⟨rfl, by decide, _, step_of_pos 100 init_state 0 _ (by decide), ?_, ?_⟩
  · decide
  · decide

/-- C4, amended: for a successful sample call whose total (the two `uint64_t`
differences plus the carried remainder) is below `2^31 * NS_PER_TICK` and for
which the `int` counter plus the ticks of the sample stays below `2^31`, the call
returns and `xentime_stolen_ticks` after the call is greater than or equal to
its value before the call. -/
theorem counter_monotone (hz : Nat) (st : State) (cpu : Nat) (reply : hypercall_reply)
    (_hok : reply.rc = 0)
    (hfit : cycle_delta (st.last_runstate cpu) reply.runstate + st.stolen cpu
      < 2 ^ 31 * NS_PER_TICK hz)
    (hlo : -2 ^ 31 ≤ st.xentime_stolen_ticks)
    (hhi : st.xentime_stolen_ticks
      + (((cycle_delta (st.last_runstate cpu) reply.runstate + st.stolen cpu)
          / NS_PER_TICK hz : Nat) : Int) < 2 ^ 31) :
    ∃ st1, xentime_do_stolen_accounting hz st cpu reply = some st1 ∧
      st.xentime_stolen_ticks ≤ st1.xentime_stolen_ticks := by
  have hN : 0 < NS_PER_TICK hz := by
    rcases Nat.eq_zero_or_pos (NS_PER_TICK hz) with h0 | h0
    · rw [h0] at hfit; omega
    · exact h0
  have hn := NS_PER_TICK_le hz
  have hb : 2 ^ 31 * NS_PER_TICK hz ≤ 2 ^ 31 * 1000000000 := Nat.mul_le_mul_left _ hn
  have ht := sample_total_of_delta st cpu reply.runstate (by omega)
  have ha := amount_exact (NS_PER_TICK hz) _ hfit
  refine ⟨_, step_of_pos hz st cpu reply hN, ?_⟩
  simp only [xentime_increase_counter]
  rw [ht, ha]
  have hq0 : (0 : Int) ≤ (((cycle_delta (st.last_runstate cpu) reply.runstate + st.stolen cpu)
      / NS_PER_TICK hz : Nat) : Int) := Int.ofNat_nonneg _
  rw [wrap_int32_of_range _ (by linarith) hhi]
  linarith

/-- Monotonicity at `hz = 100`: the sample of runnable 25,000,000 from the
initial state does not lower the counter. -/
theorem counter_monotone_witness :
    ∃ st1, xentime_do_stolen_accounting 100 init_state 0 ⟨0, snapshot 25000000 0⟩ = some st1 ∧
      init_state.xentime_stolen_ticks ≤ st1.xentime_stolen_ticks :=
  counter_monotone 100 init_state 0 ⟨0, snapshot 25000000 0⟩ rfl (by decide) (by decide)
    (by decide)

/-! ## Conservation while nothing overflows -/

theorem snap_le_trans (a b c : vcpu_runstate_info) (h1 : snap_le a b) (h2 : snap_le b c) :
    snap_le a c :=
  ⟨Nat.le_trans h1.1 h2.1, Nat.le_trans h1.2 h2.2⟩

theorem cumulative_delta_add (a b c : vcpu_runstate_info) (h1 : snap_le a b)
    (h2 : snap_le b c) :
    cumulative_delta a b + cumulative_delta b c = cumulative_delta a c := by
  unfold snap_le at h1 h2
  unfold cumulative_delta
  omega

theorem cumulative_delta_mono (a b c : vcpu_runstate_info) (h : snap_le b c) :
    cumulative_delta a b ≤ cumulative_delta a c := by
  unfold snap_le at h
  unfold cumulative_delta
  omega

theorem chain_le_last : ∀ (l : List vcpu_runstate_info) (b : vcpu_runstate_info),
    List.Chain snap_le b l → snap_le b (l.getLastD b)
  | [], b, _ => ⟨Nat.le_refl _, Nat.le_refl _⟩
  | c :: l, b, h => by
    rw [List.chain_cons] at h
    rw [List.getLastD_cons]
    exact snap_le_trans _ _ _ h.1 (chain_le_last l c h.2)

/-- The conservation equation is kept by every prefix of a run of samples with
non-decreasing counters, as long as the time accumulated since `b0` stays
below `2^31 * NS_PER_TICK`. -/
theorem conservation_from (hz : Nat) (cpu : Nat) (b0 : vcpu_runstate_info) :
    ∀ (replies : List hypercall_reply) (st : State),
      snap_le b0 (st.last_runstate cpu) →
      0 ≤ st.xentime_stolen_ticks →
      st.xentime_stolen_ticks * (NS_PER_TICK hz : Int) + (st.stolen cpu : Int)
        = (cumulative_delta b0 (st.last_runstate cpu) : Int) →
      List.Chain snap_le (st.last_runstate cpu) (replies.map hypercall_reply.runstate) →
      cumulative_delta b0
        ((replies.map hypercall_reply.runstate).getLastD (st.last_runstate cpu))
          < 2 ^ 31 * NS_PER_TICK hz →
      ∀ k, ∃ st1 amounts, run_samples hz cpu (replies.take k) st = some (st1, amounts) ∧
        st1.last_runstate cpu
          = ((replies.take k).map hypercall_reply.runstate).getLastD (st.last_runstate cpu) ∧
        st1.xentime_stolen_ticks * (NS_PER_TICK hz : Int) + (st1.stolen cpu : Int)
          = (cumulative_delta b0 (st1.last_runstate cpu) : Int) := by
  intro replies
  induction replies with
  | nil =>
    intro st _ _ heq _ _ k
    refine ⟨st, [], ?_, ?_, heq⟩
    · simp only [List.take_nil, run_samples]
    · simp only [List.take_nil, List.map_nil, List.getLastD_nil]
  | cons r rest ih =>
    intro st hb0 hc0 heq hchain hS k
    cases k with
    | zero =>
      refine ⟨st, [], ?_, ?_, heq⟩
      · simp only [List.take_zero, run_samples]
      · simp only [List.take_zero, List.map_nil, List.getLastD_nil]
    | succ k =>
      simp only [List.map_cons, List.chain_cons] at hchain
      obtain ⟨hle, hchain1⟩ := hchain
      simp only [List.map_cons, List.getLastD_cons] at hS
      obtain ⟨c, hc⟩ := Int.eq_ofNat_of_zero_le hc0
      rw [hc] at heq
      have heqN : c * NS_PER_TICK hz + st.stolen cpu
          = cumulative_delta b0 (st.last_runstate cpu) := by exact_mod_cast heq
      have hlast := chain_le_last _ _ hchain1
      have hm := cumulative_delta_mono b0 _ _ hlast
      have hadd := cumulative_delta_add b0 _ _ hb0 hle
      have htot : c * NS_PER_TICK hz + total_ns st cpu r.runstate
          = cumulative_delta b0 r.runstate := by
        unfold total_ns
        omega
      have hfit : total_ns st cpu r.runstate < 2 ^ 31 * NS_PER_TICK hz := by omega
      have hN : 0 < NS_PER_TICK hz := by
        rcases Nat.eq_zero_or_pos (NS_PER_TICK hz) with h0 | h0
        · rw [h0] at hfit; omega
        · exact h0
      have hdm := Nat.div_add_mod (total_ns st cpu r.runstate) (NS_PER_TICK hz)
      rw [Nat.mul_comm] at hdm
      have hsum : (c + total_ns st cpu r.runstate / NS_PER_TICK hz) * NS_PER_TICK hz
          + total_ns st cpu r.runstate % NS_PER_TICK hz = cumulative_delta b0 r.runstate := by
        rw [Nat.add_mul]
        omega
      have hqlt : c + total_ns st cpu r.runstate / NS_PER_TICK hz < 2 ^ 31 := by
        have h3 : (c + total_ns st cpu r.runstate / NS_PER_TICK hz) * NS_PER_TICK hz
            < 2 ^ 31 * NS_PER_TICK hz := by omega
        exact Nat.lt_of_mul_lt_mul_right h3
      obtain ⟨st1, hstep, hticks, hcnt, hrem, hl1⟩ :=
        step_exact hz st cpu r hle hfit (by rw [hc]; omega) (by rw [hc]; exact_mod_cast hqlt)
      have hb1 : snap_le b0 (st1.last_runstate cpu) := by
        rw [hl1]
        exact snap_le_trans _ _ _ hb0 hle
      have hc1 : 0 ≤ st1.xentime_stolen_ticks := by
        rw [hcnt, hc]
        exact Int.add_nonneg (Int.ofNat_nonneg _) (Int.ofNat_nonneg _)
      have heq1 : st1.xentime_stolen_ticks * (NS_PER_TICK hz : Int) + (st1.stolen cpu : Int)
          = (cumulative_delta b0 (st1.last_runstate cpu) : Int) := by
        rw [hcnt, hc, hrem, hl1]
        exact_mod_cast hsum
      obtain ⟨st2, ts, hrun, hl2, heq2⟩ :=
        ih st1 hb1 hc1 heq1 (by rw [hl1]; exact hchain1) (by rw [hl1]; exact hS) k
      refine ⟨st2, ((total_ns st cpu r.runstate / NS_PER_TICK hz : Nat) : Int) :: ts,
        ?_, ?_, heq2⟩
      · simp only [List.take_succ_cons, run_samples, hstep, hticks, hrun]
      · rw [hl2, hl1]
        simp only [List.take_succ_cons, List.map_cons, List.getLastD_cons]

/-- C10: for one CPU, starting from counter 0 and remainder 0, for every run of
successful samples with non-decreasing runnable and offline counters whose
cumulative runnable+offline delta is below `2^31 * NS_PER_TICK`, the first `k`
samples return for every `k`, and after them
`counter * NS_PER_TICK + stolen[cpu]` equals the runnable+offline time
accumulated between the initial baseline and the `k`-th snapshot. -/
theorem conservation (hz : Nat) (cpu : Nat) (st : State) (replies : List hypercall_reply)
    (hcnt : st.xentime_stolen_ticks = 0)
    (hrem : st.stolen cpu = 0)
    (_hok : ∀ r ∈ replies, r.rc = 0)
    (hmono : List.Chain snap_le (st.last_runstate cpu) (replies.map hypercall_reply.runstate))
    (hS : cumulative_delta (st.last_runstate cpu)
        ((replies.map hypercall_reply.runstate).getLastD (st.last_runstate cpu))
      < 2 ^ 31 * NS_PER_TICK hz)
    (k : Nat) :
    ∃ st1 amounts, run_samples hz cpu (replies.take k) st = some (st1, amounts) ∧
      st1.xentime_stolen_ticks * (NS_PER_TICK hz : Int) + (st1.stolen cpu : Int)
        = (cumulative_delta (st.last_runstate cpu)
            (((replies.take k).map hypercall_reply.runstate).getLastD
              (st.last_runstate cpu)) : Int) := by
  have h0 : st.xentime_stolen_ticks * (NS_PER_TICK hz : Int) + (st.stolen cpu : Int)
      = (cumulative_delta (st.last_runstate cpu) (st.last_runstate cpu) : Int) := by
    rw [hcnt, hrem]
    simp [cumulative_delta]
  obtain ⟨st1, amounts, hrun, hl, heq⟩ :=
    conservation_from hz cpu (st.last_runstate cpu) replies st
      ⟨Nat.le_refl _, Nat.le_refl _⟩ (by rw [hcnt]) h0 hmono hS k
  exact ⟨st1, amounts, hrun, by rw [← hl]; exact heq⟩

/-- Conservation at `hz = 100` after the two samples 25,000,000 and 40,000,000
(cumulative): `counter * 10,000,000 + stolen[0] = 40,000,000`. -/
theorem conservation_witness :
    cumulative_delta (init_state.last_runstate 0) (snapshot 40000000 0) = 40000000 ∧
    ∃ st1 amounts,
      run_samples 100 0
        ([(⟨0, snapshot 25000000 0⟩ : hypercall_reply), ⟨0, snapshot 40000000 0⟩].take 2)
        init_state = some (st1, amounts) ∧
      st1.xentime_stolen_ticks * (NS_PER_TICK 100 : Int) + (st1.stolen 0 : Int)
        = (cumulative_delta (init_state.last_runstate 0)
            ((([(⟨0, snapshot 25000000 0⟩ : hypercall_reply), ⟨0, snapshot 40000000 0⟩].take 2).map
              hypercall_reply.runstate).getLastD (init_state.last_runstate 0)) : Int) :=
  ⟨by decide,
   conservation 100 0 init_state [⟨0, snapshot 25000000 0⟩, ⟨0, snapshot 40000000 0⟩]
    rfl rfl (by decide)
    (List.Chain.cons (by decide) (List.Chain.cons (by decide) List.Chain.nil))
    (by decide) 2⟩

/-! ## A failed fetch during a sample -/

/-- The return code of the hypercall plays no part in a sample. -/
theorem return_code_ignored (hz : Nat) (st : State) (cpu : Nat) (rc : Int)
    (buf : vcpu_runstate_info) :
    xentime_do_stolen_accounting hz st cpu ⟨rc, buf⟩
      = xentime_do_stolen_accounting hz st cpu ⟨0, buf⟩ :=
  rfl

/-- C5 fails on the code: at `hz = 100`, from the initial state, a fetch that
fails with return code `-1` while the local buffer holds runnable 25,000,000
still adds 2 ticks, sets the remainder to 5,000,000 and overwrites
`last_runstate[0]` with the buffer. -/
theorem fetch_failure_not_isolated :
    (⟨-1, snapshot 25000000 0⟩ : hypercall_reply).rc ≠ 0 ∧
    ticks_added 100 init_state 0 ⟨-1, snapshot 25000000 0⟩ = some 2 ∧
    ∃ st1, xentime_do_stolen_accounting 100 init_state 0 ⟨-1, snapshot 25000000 0⟩ = some st1 ∧
      st1.xentime_stolen_ticks = 2 ∧ init_state.xentime_stolen_ticks = 0 ∧
      st1.stolen 0 = 5000000 ∧ init_state.stolen 0 = 0 ∧
      st1.last_runstate 0 = snapshot 25000000 0 ∧
      init_state.last_runstate 0 = zero_runstate ∧
      st1.last_runstate 0 ≠ init_state.last_runstate 0 := by
  refine ⟨by decide, by decide, _, step_of_pos 100 init_state 0 _ (by decide),
    ?_, rfl, ?_, rfl, ?_, rfl, ?_⟩
  · decide
  · decide
  · decide
  · decide

/-! ## Counters below the baseline -/

/-- C6 fails on the code: at `hz = 100`, with baseline runnable 100 and offline
100, remainder 0 and counter 0, a successful fetch of runnable 50 and offline
50 makes both differences wrap to `2^64 - 50`; the sample passes 2,133,437,386
ticks and the counter changes from 0 to 2,133,437,386. -/
theorem no_clamp_below_baseline :
    (snapshot 50 50).time_runnable < (baseline_100_state.last_runstate 0).time_runnable ∧
    (snapshot 50 50).time_offline < (baseline_100_state.last_runstate 0).time_offline ∧
    baseline_100_state.stolen 0 = 0 ∧
    u64_sub (snapshot 50 50).time_runnable (baseline_100_state.last_runstate 0).time_runnable
      = 2 ^ 64 - 50 ∧
    ticks_added 100 baseline_100_state 0 ⟨0, snapshot 50 50⟩ = some 2133437386 ∧
    ∃ st1, xentime_do_stolen_accounting 100 baseline_100_state 0 ⟨0, snapshot 50 50⟩ = some st1 ∧
      st1.xentime_stolen_ticks = 2133437386 ∧ baseline_100_state.xentime_stolen_ticks = 0 := by
  refine ⟨by decide, by decide, rfl, by decide, by decide, _,
    step_of_pos 100 baseline_100_state 0 _ (by decide), ?_, rfl⟩
  decide

/-! ## Module load -/

theorem do_init_fail (fetch : Nat → hypercall_reply) (j : Nat) (post : List Nat)
    (hj : (fetch j).rc ≠ 0) :
    ∀ (pre : List Nat) (st : State), (∀ c ∈ pre, (fetch c).rc = 0) →
      (xentime_do_init fetch (pre ++ j :: post) st).2 = (fetch j).rc ∧
      (∀ c, c ∉ pre → c ≠ j →
        (xentime_do_init fetch (pre ++ j :: post) st).1.last_runstate c = st.last_runstate c)
  | [], st, _ => by
    have h : (xentime_init_runstate_info st j (fetch j)).2 ≠ 0 := hj
    simp only [List.nil_append, xentime_do_init]
    rw [if_pos h]
    refine ⟨rfl, ?_⟩
    intro c _ hcj
    simp only [xentime_init_runstate_info, xentime_get_runstate_info]
    exact Function.update_noteq hcj _ _
  | i :: pre, st, hpre => by
    have hi : (fetch i).rc = 0 := hpre i (List.mem_cons_self _ _)
    have h : ¬ (xentime_init_runstate_info st i (fetch i)).2 ≠ 0 := fun hne => hne hi
    have ih := do_init_fail fetch j post hj pre (xentime_init_runstate_info st i (fetch i)).1
      (fun c hc => hpre c (List.mem_cons_of_mem _ hc))
    simp only [List.cons_append, xentime_do_init]
    rw [if_neg h]
    refine ⟨ih.1, ?_⟩
    intro c hc hcj
    have hci : c ≠ i := fun e => hc (e ▸ List.mem_cons_self _ _)
    have hcp : c ∉ pre := fun e => hc (List.mem_cons_of_mem _ e)
    refine (ih.2 c hcp hcj).trans ?_
    simp only [xentime_init_runstate_info, xentime_get_runstate_info]
    exact Function.update_noteq hci _ _

/-- C7 as stated fails: with CPUs 0 and 1, CPU 0 answering and CPU 1 failing,
`MOD_LOAD` from the initial state still calls `kproc_create` once, and the
baseline of CPU 0, a CPU other than the failing one, has been overwritten. -/
theorem start_atomicity_counterexample :
    (fetch_failing_on 1 1).rc ≠ 0 ∧
    (xentime_do_init (fetch_failing_on 1) [0, 1] init_state).2 ≠ 0 ∧
    (event_handler [0, 1] (fetch_failing_on 1) 0 init_state MOD_LOAD).1.kprocs
      = init_state.kprocs + 1 ∧
    (0 : Nat) ≠ 1 ∧
    (event_handler [0, 1] (fetch_failing_on 1) 0 init_state MOD_LOAD).1.last_runstate 0
      = snapshot 7 9 ∧
    (event_handler [0, 1] (fetch_failing_on 1) 0 init_state MOD_LOAD).1.last_runstate 0
      ≠ init_state.last_runstate 0 := by
  refine ⟨by decide, by decide, by decide, by decide, by decide, by decide⟩

/-- C7, amended: on `MOD_LOAD`, if the CPUs `pre` enumerated first all answer
and the next CPU `j` fails its initial fetch, then `xentime_do_init` returns
that failure code and `last_runstate[c]` keeps its pre-load value for every
CPU `c` other than `j` and those of `pre`, in particular for every CPU
enumerated after `j`. -/
theorem start_failure_frame (fetch : Nat → hypercall_reply) (pre post : List Nat) (j : Nat)
    (sleep_rc : Int) (st : State)
    (hpre : ∀ c ∈ pre, (fetch c).rc = 0)
    (hj : (fetch j).rc ≠ 0) :
    (xentime_do_init fetch (pre ++ j :: post) st).2 = (fetch j).rc ∧
    ∀ c, c ∉ pre → c ≠ j →
      (event_handler (pre ++ j :: post) fetch sleep_rc st MOD_LOAD).1.last_runstate c
        = st.last_runstate c := by
  have h := do_init_fail fetch j post hj pre st hpre
  refine ⟨h.1, ?_⟩
  intro c hc hcj
  have hrc : ¬ (xentime_do_init fetch (pre ++ j :: post) st).2 = 0 := by
    rw [h.1]
    exact hj
  simp only [event_handler, if_true]
  rw [if_neg hrc]
  exact h.2 c hc hcj

/-- The frame of a failed load with CPUs 0, 1, 2 where CPU 1 fails: the
baseline of CPU 2 is the pre-load one. -/
theorem start_failure_frame_witness :
    (∀ c ∈ [0], (fetch_failing_on 1 c).rc = 0) ∧ (fetch_failing_on 1 1).rc ≠ 0 ∧
    (xentime_do_init (fetch_failing_on 1) ([0] ++ 1 :: [2]) init_state).2 = -1 ∧
    (event_handler ([0] ++ 1 :: [2]) (fetch_failing_on 1) 0 init_state MOD_LOAD).1.last_runstate 2
      = init_state.last_runstate 2 :=
  ⟨by decide, by decide,
   (start_failure_frame (fetch_failing_on 1) [0] [2] 1 0 init_state (by decide) (by decide)).1,
   (start_failure_frame (fetch_failing_on 1) [0] [2] 1 0 init_state (by decide) (by decide)).2
     2 (by decide) (by decide)⟩

/-- The `MOD_LOAD` branch never sets the error code. -/
theorem load_returns_zero (cpus : List Nat) (fetch : Nat → hypercall_reply) (sleep_rc : Int)
    (st : State) :
    (event_handler cpus fetch sleep_rc st MOD_LOAD).2 = 0 := by
  simp only [event_handler, if_true]

/-- C8 fails on the code: with the single CPU 0 failing its initial fetch,
`xentime_do_init` returns `-1` and `event_handler(MOD_LOAD)` returns 0. -/
theorem load_failure_not_surfaced :
    (fetch_failing_on 0 0).rc ≠ 0 ∧
    (xentime_do_init (fetch_failing_on 0) [0] init_state).2 = -1 ∧
    (event_handler [0] (fetch_failing_on 0) 0 init_state MOD_LOAD).2 = 0 := by
  refine ⟨by decide, by decide, by decide⟩

/-! ## The background loop -/

theorem sample_cycle_total (hz : Nat) (fetch : Nat → hypercall_reply)
    (hN : 0 < NS_PER_TICK hz) :
    ∀ (cpus : List Nat) (st : State), ∃ st1, sample_cycle hz fetch cpus st = some st1 ∧
      st1.xentime_thread_flag = st.xentime_thread_flag
  | [], st => ⟨st, rfl, rfl⟩
  | i :: rest, st => by
    obtain ⟨st2, h2, hf2⟩ := sample_cycle_total hz fetch hN rest
      (xentime_increase_counter
        { st with
            last_runstate := Function.update st.last_runstate i (fetch i).runstate,
            stolen := Function.update st.stolen i
              (sample_total st i (fetch i).runstate % NS_PER_TICK hz) }
        (int32_of_uint32 (sample_total st i (fetch i).runstate / NS_PER_TICK hz % 2 ^ 32)))
    refine ⟨st2, ?_, ?_⟩
    · simp only [sample_cycle, step_of_pos hz st i (fetch i) hN]
      exact h2
    · rw [hf2]
      rfl

/-- C9 as stated fails: at `hz = 100` with the single CPU 0, the thread sleeping
in a running state is woken with the stop flag set to `-1`; it still runs one
sample cycle (the counter goes from 0 to 2) and only then leaves the loop. -/
theorem stop_at_wake_counterexample :
    running_state.xentime_thread_flag = 0 ∧
    (⟨-1, fun _ => ⟨0, snapshot 25000000 0⟩⟩ : wake).flag ≠ 0 ∧
    running_state.xentime_stolen_ticks = 0 ∧
    (xentime_do_thread 100 [0] [⟨-1, fun _ => ⟨0, snapshot 25000000 0⟩⟩] running_state 0).map
        (fun r => (r.exited, r.cycles, r.st.xentime_stolen_ticks, r.st.last_runstate 0))
      = some (true, 1, 2, snapshot 25000000 0) := by
  refine ⟨rfl, by decide, rfl, by decide⟩

/-- C9, amended: with `1 <= hz <= 1,000,000,000`, the stop flag is looked at
only where the loop condition is tested.  When the thread sleeps with the flag
clear and wakes with the flag set, it runs one sample cycle over every CPU and
then leaves the loop without waiting again; and whenever the flag is non-zero
where the loop condition is tested, the loop is left without any sample
cycle. -/
theorem stop_seen_at_loop_test (hz : Nat) (cpus : List Nat) (w : wake) (rest : List wake)
    (st : State) (n : Nat)
    (h1 : 1 ≤ hz) (h2 : hz ≤ 1000000000)
    (h0 : st.xentime_thread_flag = 0)
    (hw : w.flag ≠ 0) :
    (∃ st1, sample_cycle hz w.fetch cpus { st with xentime_thread_flag := w.flag } = some st1 ∧
      xentime_do_thread hz cpus (w :: rest) st n = some ⟨st1, true, n + 1⟩) ∧
    (∀ (ws : List wake) (st2 : State) (m : Nat), st2.xentime_thread_flag ≠ 0 →
      xentime_do_thread hz cpus ws st2 m = some ⟨st2, true, m⟩) := by
  have hN : 0 < NS_PER_TICK hz := NS_PER_TICK_pos hz h1 h2
  have hexit : ∀ (ws : List wake) (st2 : State) (m : Nat), st2.xentime_thread_flag ≠ 0 →
      xentime_do_thread hz cpus ws st2 m = some ⟨st2, true, m⟩ := by
    intro ws st2 m hf
    unfold xentime_do_thread
    rw [if_pos hf]
  refine ⟨?_, hexit⟩
  obtain ⟨st1, hs, hf⟩ :=
    sample_cycle_total hz w.fetch hN cpus { st with xentime_thread_flag := w.flag }
  refine ⟨st1, hs, ?_⟩
  have hnot : ¬ st.xentime_thread_flag ≠ 0 := fun h => h h0
  rw [xentime_do_thread, if_neg hnot]
  simp only [hs]
  exact hexit rest st1 (n + 1) (by rw [hf]; exact hw)

/-- A stop requested during the wait, at `hz = 100` with the single CPU 0: the
cycle after the wake returns and the thread then exits with one cycle run. -/
theorem stop_seen_at_loop_test_witness :
    ∃ st1, sample_cycle 100 (fun _ => ⟨0, snapshot 25000000 0⟩) [0]
        { running_state with xentime_thread_flag := -1 } = some st1 ∧
      xentime_do_thread 100 [0] (⟨-1, fun _ => ⟨0, snapshot 25000000 0⟩⟩ :: []) running_state 0
        = some ⟨st1, true, 0 + 1⟩ :=
  (stop_seen_at_loop_test 100 [0] ⟨-1, fun _ => ⟨0, snapshot 25000000 0⟩⟩ [] running_state 0
    (by decide) (by decide) rfl (by decide)).1

end Xentime
